import Mathlib

/-!
Shallow embedding of `src/buffered.c` (xmlsec buffered transform).

The buffered transform node holds a status flag (`xmlSecTransformStatusNone`
while pending, `xmlSecTransformStatusOk` once finalized) and an optional
owned byte buffer (`xmlBufferPtr`, modelled as `Option (List Nat)`; the
pointer is `NULL` exactly when the option is `none` on every path of
Read/Write/Flush, which always set the field back to `NULL` after freeing).

External collaborators are modelled explicitly:
 - the previous transform is a list of responses to `xmlSecBinTransformRead`
   calls (`ChunkResp`): either a chunk of bytes (the empty chunk is the
   0 return that ends the drain loop; an exhausted list also answers 0), or
   an error (negative return);
 - the next transform is represented by two booleans saying whether its
   Write and Flush succeed, plus the trace of calls made to it;
 - the `bufferedProcess` callback of the transform id is an optional
   function on the buffered bytes, returning the new buffer content or an
   error; `xmlSecBufferedProcess` dispatches to it exactly as the source
   does (absent callback: success, buffer untouched);
 - `xmlBufferCreate` may fail; the `allocOk` flag says whether it succeeds.

Every operation returns, besides the C `int` result, the new node state and
a trace of the calls made to collaborators (`Ev`), so that "Process is
invoked once" or "next is never touched" are plain statements about the
trace.  The caller-supplied output region of Read is modelled as a list
`buf` whose prefix is overwritten by every upstream read (the source reuses
the caller's buffer as the scratch region of the drain loop) and by the
final `memcpy`.  The `memset`-to-zero of consumed bytes before
`xmlBufferShrink` (line 115) has no effect on the remaining buffer content
and is not represented separately: after the shrink the buffer holds
exactly the bytes past the delivered front.
-/

/-- `xmlSecTransformStatus` as used in `buffered.c`: `statusNone` is the
initial ("pending") state, `statusOk` the finalized state set by Read
exhaustion or Flush. -/
inductive TransformStatus where
  | statusNone
  | statusOk
deriving DecidableEq, Repr

/-- The mutable state of a buffered transform node: the status flag and the
optional owned buffer (`buffered->buffer`). -/
structure BufferedTransform where
  status : TransformStatus
  buffer : Option (List Nat)
deriving DecidableEq, Repr

/-- One response of the previous transform to `xmlSecBinTransformRead`:
a chunk of bytes (possibly empty, meaning a 0 return) or an error. -/
inductive ChunkResp where
  | chunk (bytes : List Nat)
  | err
deriving DecidableEq, Repr

/-- Trace events: calls made by the node to its collaborators. -/
inductive Ev where
  | procCall (input : List Nat)
  | prevRead (size : Nat)
  | nextWrite (payload : List Nat)
  | nextFlush
deriving DecidableEq, Repr

/-- `xmlSecBufferedProcess` (lines 258-277): dispatch to the id's
`bufferedProcess` callback when present, otherwise succeed leaving the
buffer untouched.  Returns the resulting buffer content (the callback
mutates the buffer in place in C) together with the trace of callback
invocations. -/
def xmlSecBufferedProcess (cb : Option (List Nat → Except Unit (List Nat)))
    (buffer : List Nat) : Except Unit (List Nat) × List Ev :=
  match cb with
  | Option.none => (Except.ok buffer, [])
  | Option.some f => (f buffer, [Ev.procCall buffer])

/-- Writing a chunk returned by the previous transform into the caller's
output region: the chunk overwrites the front, the rest is untouched. -/
def overlay (chunk buf : List Nat) : List Nat :=
  chunk ++ buf.drop chunk.length

/-- Result of the drain loop of Read (lines 84-94). -/
structure DrainRes where
  ok : Bool
  acc : List Nat
  buf : List Nat
  rest : List ChunkResp
  evs : List Ev
deriving DecidableEq, Repr

/-- The drain loop of Read (lines 84-94): repeatedly call
`xmlSecBinTransformRead` on the previous transform with the caller's buffer
`buf` and capacity `size`, appending every positive return to the
accumulator, until a 0 return (empty chunk or exhausted response list) or
an error. -/
def drainPrev (size : Nat) : List ChunkResp → List Nat → List Nat → DrainRes
  | [], acc, buf => ⟨true, acc, buf, [], [Ev.prevRead size]⟩
  | ChunkResp.err :: rest, acc, buf => ⟨false, acc, buf, rest, [Ev.prevRead size]⟩
  | ChunkResp.chunk [] :: rest, acc, buf => ⟨true, acc, buf, rest, [Ev.prevRead size]⟩
  | ChunkResp.chunk (b :: bs) :: rest, acc, buf =>
    let r := drainPrev size rest (acc ++ (b :: bs)) (overlay (b :: bs) buf)
    ⟨r.ok, r.acc, r.buf, r.rest, Ev.prevRead size :: r.evs⟩

/-- Result of the delivery step at the end of Read. -/
structure DeliverRes where
  ret : Int
  out : List Nat
  trans : BufferedTransform
  buf : List Nat
deriving DecidableEq, Repr

/-- Lines 105-117: deliver the buffer content to the caller.  If it fits in
`size`, copy it all, finalize the status and free the buffer; otherwise
copy exactly `size` bytes and shrink the buffer front (status stays
pending, which is what it was on entry to this code). -/
def bufferedDeliverStep (content buf : List Nat) (size : Nat) : DeliverRes :=
  if content.length ≤ size then
    ⟨(content.length : Int), content, ⟨TransformStatus.statusOk, Option.none⟩,
      content ++ buf.drop content.length⟩
  else
    ⟨(size : Int), content.take size,
      ⟨TransformStatus.statusNone, Option.some (content.drop size)⟩,
      content.take size ++ buf.drop size⟩

/-- Result of `xmlSecBufferedTransformRead`: the C return value, the bytes
delivered to the caller (`buf.take ret` when `ret ≥ 0`), the new node
state, the remaining upstream responses, the caller's output region after
the call, and the trace. -/
structure ReadRes where
  ret : Int
  out : List Nat
  trans : BufferedTransform
  prev : Option (List ChunkResp)
  buf : List Nat
  evs : List Ev
deriving DecidableEq, Repr

/-- `xmlSecBufferedTransformRead` (lines 46-120).  `prev = none` models
`buffered->prev == NULL`; `allocOk = false` models `xmlBufferCreate`
failing (line 78, buffer field stays `NULL`).  The `transform != NULL`
assert and the subtype check are outside the model (the node is typed).
A `NULL` caller buffer, like `size = 0`, returns 0 at line 63. -/
def xmlSecBufferedTransformRead (cb : Option (List Nat → Except Unit (List Nat)))
    (allocOk : Bool) (trans : BufferedTransform) (prev : Option (List ChunkResp))
    (buf : List Nat) (size : Nat) : ReadRes :=
  if size = 0 then ⟨0, [], trans, prev, buf, []⟩
  else
    match trans.status, prev with
    | TransformStatus.statusOk, _ => ⟨0, [], trans, prev, buf, []⟩
    | TransformStatus.statusNone, Option.none => ⟨0, [], trans, prev, buf, []⟩
    | TransformStatus.statusNone, Option.some chunks =>
      match trans.buffer with
      | Option.some content =>
        let d := bufferedDeliverStep content buf size
        ⟨d.ret, d.out, d.trans, Option.some chunks, d.buf, []⟩
      | Option.none =>
        if allocOk then
          let d := drainPrev size chunks [] buf
          if d.ok then
            match xmlSecBufferedProcess cb d.acc with
            | (Except.ok p, pev) =>
              let dl := bufferedDeliverStep p d.buf size
              ⟨dl.ret, dl.out, dl.trans, Option.some d.rest, dl.buf, d.evs ++ pev⟩
            | (Except.error _, pev) =>
              ⟨-1, [], ⟨TransformStatus.statusNone, Option.some d.acc⟩,
                Option.some d.rest, d.buf, d.evs ++ pev⟩
          else
            ⟨-1, [], ⟨TransformStatus.statusNone, Option.some d.acc⟩,
              Option.some d.rest, d.buf, d.evs⟩
        else ⟨-1, [], trans, Option.some chunks, buf, []⟩

/-- Result of `xmlSecBufferedTransformWrite`. -/
structure WriteRes where
  ret : Int
  trans : BufferedTransform
  evs : List Ev
deriving DecidableEq, Repr

/-- `xmlSecBufferedTransformWrite` (lines 132-167).  `hasNext = false`
models `buffered->next == NULL`; an empty `input` models `buf == NULL` or
`size == 0`.  The function makes no call to the callback or to either
neighbor, so its trace is empty on every path. -/
def xmlSecBufferedTransformWrite (allocOk : Bool) (trans : BufferedTransform)
    (hasNext : Bool) (input : List Nat) : WriteRes :=
  match input with
  | [] => ⟨0, trans, []⟩
  | b :: bs =>
    match trans.status, hasNext with
    | TransformStatus.statusOk, _ => ⟨0, trans, []⟩
    | TransformStatus.statusNone, false => ⟨0, trans, []⟩
    | TransformStatus.statusNone, true =>
      match trans.buffer with
      | Option.none =>
        if allocOk then ⟨0, ⟨TransformStatus.statusNone, Option.some (b :: bs)⟩, []⟩
        else ⟨-1, trans, []⟩
      | Option.some c =>
        ⟨0, ⟨TransformStatus.statusNone, Option.some (c ++ (b :: bs))⟩, []⟩

/-- Result of `xmlSecBufferedTransformFlush`. -/
structure FlushRes where
  ret : Int
  trans : BufferedTransform
  evs : List Ev
deriving DecidableEq, Repr

/-- `xmlSecBufferedTransformFlush` (lines 177-230).  `hasNext`,
`nextWriteOk`, `nextFlushOk` model the presence of the next transform and
the outcomes of `xmlSecBinTransformWrite` / `xmlSecBinTransformFlush` on
it.  On a `next.Write` failure the buffer keeps the content the callback
produced in place (the source frees nothing on that path); on a
`next.Flush` failure the node is already finalized and the buffer already
freed when the error is returned. -/
def xmlSecBufferedTransformFlush (cb : Option (List Nat → Except Unit (List Nat)))
    (trans : BufferedTransform) (hasNext : Bool) (nextWriteOk : Bool)
    (nextFlushOk : Bool) : FlushRes :=
  match trans.status, hasNext, trans.buffer with
  | TransformStatus.statusOk, _, _ => ⟨0, trans, []⟩
  | TransformStatus.statusNone, false, _ => ⟨0, trans, []⟩
  | TransformStatus.statusNone, true, Option.none => ⟨0, trans, []⟩
  | TransformStatus.statusNone, true, Option.some content =>
    match xmlSecBufferedProcess cb content with
    | (Except.error _, pev) => ⟨-1, trans, pev⟩
    | (Except.ok p, pev) =>
      if nextWriteOk then
        if nextFlushOk then
          ⟨0, ⟨TransformStatus.statusOk, Option.none⟩,
            pev ++ [Ev.nextWrite p, Ev.nextFlush]⟩
        else
          ⟨-1, ⟨TransformStatus.statusOk, Option.none⟩,
            pev ++ [Ev.nextWrite p, Ev.nextFlush]⟩
      else ⟨-1, ⟨TransformStatus.statusNone, Option.some p⟩, pev ++ [Ev.nextWrite p]⟩

/-- `xmlBufferPtr` as a heap-aware reference, for `xmlSecBufferedDestroy`
only: that function frees the buffer without clearing the pointer field
(unlike Read at lines 109-111 and Flush at lines 217-219), so after it the
field can dangle. -/
inductive BufPtr where
  | null
  | alive (content : List Nat)
  | dangling
deriving DecidableEq, Repr

/-- Node state with the heap-aware buffer pointer. -/
structure BufferedTransformH where
  status : TransformStatus
  buffer : BufPtr
deriving DecidableEq, Repr

/-- `xmlSecBufferedDestroy` (lines 238-246): if the buffer pointer is not
`NULL`, call `xmlBufferEmpty` and `xmlBufferFree` on it; the pointer field
is NOT set to `NULL` afterwards, so it is left dangling.  Calling
`xmlBufferEmpty`/`xmlBufferFree` on an already-freed pointer is undefined
behavior, modelled as an error. -/
def xmlSecBufferedDestroy (t : BufferedTransformH) : Except Unit BufferedTransformH :=
  match t.buffer with
  | BufPtr.null => Except.ok t
  | BufPtr.alive _ => Except.ok ⟨t.status, BufPtr.dangling⟩
  | BufPtr.dangling => Except.error ()

/-- Result of a sequence of Read calls. -/
structure RunRes where
  outs : List (List Nat)
  trans : BufferedTransform
  prev : Option (List ChunkResp)
deriving DecidableEq, Repr

/-- Call Read `n` times with capacity `k`, each time with a fresh zeroed
caller region of length `k`, collecting the delivered byte regions. -/
def runReads (cb : Option (List Nat → Except Unit (List Nat))) (k : Nat) :
    Nat → BufferedTransform → Option (List ChunkResp) → RunRes
  | 0, t, p => ⟨[], t, p⟩
  | Nat.succ n, t, p =>
    let r := xmlSecBufferedTransformRead cb true t p (List.replicate k 0) k
    let rest := runReads cb k n r.trans r.prev
    ⟨r.out :: rest.outs, rest.trans, rest.prev⟩

/-- Result of a sequence of Write calls. -/
structure WriteRun where
  rets : List Int
  trans : BufferedTransform
  evs : List Ev
deriving DecidableEq, Repr

/-- Call Write once per element of `inputs`, in order. -/
def runWrites (allocOk : Bool) (hasNext : Bool) :
    BufferedTransform → List (List Nat) → WriteRun
  | t, [] => ⟨[], t, []⟩
  | t, input :: rest =>
    let w := xmlSecBufferedTransformWrite allocOk t hasNext input
    let r := runWrites allocOk hasNext w.trans rest
    ⟨w.ret :: r.rets, r.trans, w.evs ++ r.evs⟩

/-- Number of invocations of the process callback recorded in a trace. -/
def countProcCalls (evs : List Ev) : Nat :=
  (evs.filter fun e =>
    match e with
    | Ev.procCall _ => true
    | _ => false).length

/-- C3: on a finalized node every further Read returns 0, every further
Write and Flush return success, none of them changes the node state, the
remaining upstream responses, the caller's region, or makes any call to the
callback or a neighbor (empty trace); and no operation — Destroy included —
moves the status away from finalized. -/
theorem finalized_is_terminal (cb : Option (List Nat → Except Unit (List Nat)))
    (allocOk : Bool) (b : Option (List Nat)) (prev : Option (List ChunkResp))
    (buf input : List Nat) (size : Nat) (hasNext nwo nfo : Bool) (bp : BufPtr) :
    xmlSecBufferedTransformRead cb allocOk ⟨TransformStatus.statusOk, b⟩ prev buf size =
      ⟨0, [], ⟨TransformStatus.statusOk, b⟩, prev, buf, []⟩ ∧
    xmlSecBufferedTransformWrite allocOk ⟨TransformStatus.statusOk, b⟩ hasNext input =
      ⟨0, ⟨TransformStatus.statusOk, b⟩, []⟩ ∧
    xmlSecBufferedTransformFlush cb ⟨TransformStatus.statusOk, b⟩ hasNext nwo nfo =
      ⟨0, ⟨TransformStatus.statusOk, b⟩, []⟩ ∧
    (xmlSecBufferedDestroy ⟨TransformStatus.statusOk, bp⟩ = Except.error () ∨
      ∃ b2, xmlSecBufferedDestroy ⟨TransformStatus.statusOk, bp⟩ =
        Except.ok ⟨TransformStatus.statusOk, b2⟩) := by
  refine ⟨?_, ?_, ?_, ?_⟩
  · by_cases hs : size = 0 <;> simp [xmlSecBufferedTransformRead, hs]
  · cases input <;> cases hasNext <;> rfl
  · rfl
  · cases bp
    · exact Or.inr ⟨BufPtr.null, rfl⟩
    · exact Or.inr ⟨BufPtr.dangling, rfl⟩
    · exact Or.inl rfl

/-- C8: a node with no previous transform returns 0 from Read whatever its
state, leaving everything unchanged; a node with no next transform accepts
Write with success and no accumulation and treats Flush as a successful
no-op, in both cases with an empty call trace. -/
theorem missing_neighbor_inert (cb : Option (List Nat → Except Unit (List Nat)))
    (allocOk : Bool) (trans : BufferedTransform) (buf input : List Nat)
    (size : Nat) (nwo nfo : Bool) :
    xmlSecBufferedTransformRead cb allocOk trans Option.none buf size =
      ⟨0, [], trans, Option.none, buf, []⟩ ∧
    xmlSecBufferedTransformWrite allocOk trans false input = ⟨0, trans, []⟩ ∧
    xmlSecBufferedTransformFlush cb trans false nwo nfo = ⟨0, trans, []⟩ := by
  refine ⟨?_, ?_, ?_⟩
  · by_cases hs : size = 0 <;> cases htr : trans.status <;>
      simp [xmlSecBufferedTransformRead, hs, htr]
  · cases input <;> cases htr : trans.status <;>
      simp [xmlSecBufferedTransformWrite, htr]
  · cases htr : trans.status <;> cases hb : trans.buffer <;>
      simp [xmlSecBufferedTransformFlush, htr, hb]

/-- C2: Flush on a pending node with a next transform and a present
accumulator invokes the process callback exactly once, on exactly the
accumulated content; pushes the whole processed result downstream in a
single `next.Write` call; and, that Write succeeding, finalizes the status,
releases the accumulator and then calls `next.Flush` (whatever that flush
then returns). -/
theorem flush_processes_once_and_cascades (f : List Nat → Except Unit (List Nat))
    (content p : List Nat) (nfo : Bool) (hp : f content = Except.ok p) :
    xmlSecBufferedTransformFlush (Option.some f)
      ⟨TransformStatus.statusNone, Option.some content⟩ true true nfo =
    ⟨if nfo then 0 else -1, ⟨TransformStatus.statusOk, Option.none⟩,
      [Ev.procCall content, Ev.nextWrite p, Ev.nextFlush]⟩ := by
  cases nfo <;> simp [xmlSecBufferedTransformFlush, xmlSecBufferedProcess, hp]

/-- Witness for C2, the spec's concrete scenario: callback appends a fixed
4-byte marker; after writing "AB" and "CD" the accumulator is "ABCD" and
Flush pushes the 8-byte processed content downstream once, finalizing. -/
theorem flush_processes_once_and_cascades_witness :
    xmlSecBufferedTransformFlush
        (Option.some fun l => Except.ok (l ++ [0, 1, 2, 3]))
        ⟨TransformStatus.statusNone, Option.some [65, 66, 67, 68]⟩ true true true =
      ⟨0, ⟨TransformStatus.statusOk, Option.none⟩,
        [Ev.procCall [65, 66, 67, 68],
          Ev.nextWrite [65, 66, 67, 68, 0, 1, 2, 3], Ev.nextFlush]⟩ :=
  flush_processes_once_and_cascades (fun l => Except.ok (l ++ [0, 1, 2, 3]))
    [65, 66, 67, 68] [65, 66, 67, 68, 0, 1, 2, 3] true rfl

/-- C9 (code bug): the first Destroy on a node with a live accumulator
frees it, keeping the status, but leaves the pointer field dangling
(`buffered->buffer` is not set to `NULL`, unlike lines 109-111 and
217-219), so a second Destroy frees the same pointer again — undefined
behavior instead of the idempotence the node's conventions elsewhere
establish. -/
theorem destroy_not_idempotent :
    xmlSecBufferedDestroy ⟨TransformStatus.statusNone, BufPtr.alive [1]⟩ =
      Except.ok ⟨TransformStatus.statusNone, BufPtr.dangling⟩ ∧
    xmlSecBufferedDestroy ⟨TransformStatus.statusNone, BufPtr.dangling⟩ =
      Except.error () := ⟨rfl, rfl⟩

/-- C10: the drain phase of the first Read uses the caller's output region
as the scratch buffer for the upstream reads, so (a) Read can return 0 yet
have overwritten the caller's region (upstream "XYZ" digested to an empty
result), (b) Read can return an error yet have overwritten it (upstream
errors after one chunk), and (c) bytes beyond the returned count can be
overwritten (upstream "XYZ" processed to the single byte 7: position 0
holds the result, positions 1-2 still hold upstream residue, not the
caller's original bytes). -/
theorem read_scratches_caller_region :
    ((xmlSecBufferedTransformRead (Option.some fun _ => Except.ok [])
        true ⟨TransformStatus.statusNone, Option.none⟩
        (Option.some [ChunkResp.chunk [1, 2, 3]]) [9, 9, 9, 9] 4).ret = 0 ∧
      (xmlSecBufferedTransformRead (Option.some fun _ => Except.ok [])
        true ⟨TransformStatus.statusNone, Option.none⟩
        (Option.some [ChunkResp.chunk [1, 2, 3]]) [9, 9, 9, 9] 4).buf =
        [1, 2, 3, 9]) ∧
    ((xmlSecBufferedTransformRead Option.none
        true ⟨TransformStatus.statusNone, Option.none⟩
        (Option.some [ChunkResp.chunk [1, 2], ChunkResp.err]) [9, 9, 9, 9] 4).ret = -1 ∧
      (xmlSecBufferedTransformRead Option.none
        true ⟨TransformStatus.statusNone, Option.none⟩
        (Option.some [ChunkResp.chunk [1, 2], ChunkResp.err]) [9, 9, 9, 9] 4).buf =
        [1, 2, 9, 9]) ∧
    ((xmlSecBufferedTransformRead (Option.some fun _ => Except.ok [7])
        true ⟨TransformStatus.statusNone, Option.none⟩
        (Option.some [ChunkResp.chunk [1, 2, 3]]) [9, 9, 9, 9] 4).ret = 1 ∧
      (xmlSecBufferedTransformRead (Option.some fun _ => Except.ok [7])
        true ⟨TransformStatus.statusNone, Option.none⟩
        (Option.some [ChunkResp.chunk [1, 2, 3]]) [9, 9, 9, 9] 4).buf =
        [7, 2, 3, 9]) := by
  refine ⟨⟨?_, ?_⟩, ⟨?_, ?_⟩, ⟨?_, ?_⟩⟩ <;> rfl

/-- C5 counterexample: Read on a fresh pending node whose upstream errors
immediately returns an error, but the node's state is NOT as before the
call: the accumulator has been created (the source never frees the buffer
it allocated at line 77 on the error paths at lines 90 and 101). -/
theorem read_error_mutates_state :
    (xmlSecBufferedTransformRead Option.none true
        ⟨TransformStatus.statusNone, Option.none⟩
        (Option.some [ChunkResp.err]) [0, 0] 2).ret = -1 ∧
    (xmlSecBufferedTransformRead Option.none true
        ⟨TransformStatus.statusNone, Option.none⟩
        (Option.some [ChunkResp.err]) [0, 0] 2).trans ≠
      ⟨TransformStatus.statusNone, Option.none⟩ := by
  exact ⟨rfl, by decide⟩

/-- The delivery step never returns a negative count. -/
theorem bufferedDeliverStep_ret_nonneg (content buf : List Nat) (size : Nat) :
    0 ≤ (bufferedDeliverStep content buf size).ret := by
  unfold bufferedDeliverStep
  split <;> simp

/-- C5 amended: whenever Read returns an error the status is exactly as
before the call and in particular not finalized; the accumulator is
unchanged unless it was absent before the call (the error paths can leave
it created, holding the bytes drained so far). -/
theorem read_error_preserves_status (cb : Option (List Nat → Except Unit (List Nat)))
    (allocOk : Bool) (trans : BufferedTransform) (prev : Option (List ChunkResp))
    (buf : List Nat) (size : Nat)
    (herr : (xmlSecBufferedTransformRead cb allocOk trans prev buf size).ret < 0) :
    (xmlSecBufferedTransformRead cb allocOk trans prev buf size).trans.status =
      trans.status ∧
    (xmlSecBufferedTransformRead cb allocOk trans prev buf size).trans.status ≠
      TransformStatus.statusOk ∧
    ((xmlSecBufferedTransformRead cb allocOk trans prev buf size).trans.buffer =
        trans.buffer ∨ trans.buffer = Option.none) := by
  obtain ⟨st, bf⟩ := trans
  by_cases hs : size = 0
  · simp [xmlSecBufferedTransformRead, hs] at herr
  · cases st with
    | statusOk => simp [xmlSecBufferedTransformRead, hs] at herr
    | statusNone =>
      cases prev with
      | none => simp [xmlSecBufferedTransformRead, hs] at herr
      | some chunks =>
        cases bf with
        | some content =>
          exfalso
          have h0 := bufferedDeliverStep_ret_nonneg content buf size
          simp only [xmlSecBufferedTransformRead, hs, if_false, if_neg hs] at herr
          omega
        | none =>
          cases allocOk with
          | false => simp [xmlSecBufferedTransformRead, hs]
          | true =>
            cases hdok : (drainPrev size chunks [] buf).ok with
            | false => simp [xmlSecBufferedTransformRead, hs, hdok]
            | true =>
              cases hproc : xmlSecBufferedProcess cb (drainPrev size chunks [] buf).acc with
              | mk r pev =>
                cases r with
                | error e => simp [xmlSecBufferedTransformRead, hs, hdok, hproc]
                | ok p =>
                  exfalso
                  have h0 := bufferedDeliverStep_ret_nonneg p
                    (drainPrev size chunks [] buf).buf size
                  simp [xmlSecBufferedTransformRead, hs, hdok, hproc] at herr
                  omega

/-- Witness for C5 amended, at the concrete erroring input of the
counterexample. -/
theorem read_error_preserves_status_witness :
    (xmlSecBufferedTransformRead Option.none true
        ⟨TransformStatus.statusNone, Option.none⟩
        (Option.some [ChunkResp.err]) [0, 0] 2).trans.status =
      TransformStatus.statusNone ∧
    (xmlSecBufferedTransformRead Option.none true
        ⟨TransformStatus.statusNone, Option.none⟩
        (Option.some [ChunkResp.err]) [0, 0] 2).trans.status ≠
      TransformStatus.statusOk ∧
    ((xmlSecBufferedTransformRead Option.none true
        ⟨TransformStatus.statusNone, Option.none⟩
        (Option.some [ChunkResp.err]) [0, 0] 2).trans.buffer = Option.none ∨
      (Option.none : Option (List Nat)) = Option.none) :=
  read_error_preserves_status Option.none true
    ⟨TransformStatus.statusNone, Option.none⟩
    (Option.some [ChunkResp.err]) [0, 0] 2 (by decide)

/-- C6 counterexample: when the downstream `next.Flush` fails (line 222),
Flush returns an error, yet the node's status HAS changed: it was set to
finalized at line 216 (and the accumulator freed) before `next.Flush` was
called, so a failed Flush does not always leave the status as before the
call. -/
theorem flush_error_changes_status :
    (xmlSecBufferedTransformFlush (Option.some fun l => Except.ok l)
        ⟨TransformStatus.statusNone, Option.some [1]⟩ true true false).ret = -1 ∧
    (xmlSecBufferedTransformFlush (Option.some fun l => Except.ok l)
        ⟨TransformStatus.statusNone, Option.some [1]⟩ true true false).trans.status ≠
      TransformStatus.statusNone := by
  exact ⟨rfl, by decide⟩

/-- C6 amended: on a pending node with a next transform and a present
accumulator, (a) if the process callback fails, Flush returns an error with
the node state fully unchanged, no `next.Write` and no `next.Flush`; (b) if
the callback succeeds but `next.Write` fails, Flush returns an error, the
status is unchanged (not finalized) and the accumulator is still present
but now holds the processed content the callback produced in place, and
`next.Flush` is not called; (c) if `next.Write` succeeds but `next.Flush`
fails, Flush returns an error although the node is already finalized and
the accumulator already released. -/
theorem flush_error_cases (f : List Nat → Except Unit (List Nat))
    (content : List Nat) (nfo nwo : Bool) :
    (f content = Except.error () →
      xmlSecBufferedTransformFlush (Option.some f)
          ⟨TransformStatus.statusNone, Option.some content⟩ true nwo nfo =
        ⟨-1, ⟨TransformStatus.statusNone, Option.some content⟩,
          [Ev.procCall content]⟩) ∧
    (∀ p, f content = Except.ok p →
      xmlSecBufferedTransformFlush (Option.some f)
          ⟨TransformStatus.statusNone, Option.some content⟩ true false nfo =
        ⟨-1, ⟨TransformStatus.statusNone, Option.some p⟩,
          [Ev.procCall content, Ev.nextWrite p]⟩) ∧
    (∀ p, f content = Except.ok p →
      xmlSecBufferedTransformFlush (Option.some f)
          ⟨TransformStatus.statusNone, Option.some content⟩ true true false =
        ⟨-1, ⟨TransformStatus.statusOk, Option.none⟩,
          [Ev.procCall content, Ev.nextWrite p, Ev.nextFlush]⟩) := by
  refine ⟨fun hf => ?_, fun p hf => ?_, fun p hf => ?_⟩ <;>
    simp [xmlSecBufferedTransformFlush, xmlSecBufferedProcess, hf]

/-- Witness for C6 amended, at a callback that fails on the byte 1 and
doubles anything else. -/
theorem flush_error_cases_witness :
    (xmlSecBufferedTransformFlush
        (Option.some fun l => if l = [1] then Except.error () else Except.ok (l ++ l))
        ⟨TransformStatus.statusNone, Option.some [1]⟩ true true true =
      ⟨-1, ⟨TransformStatus.statusNone, Option.some [1]⟩, [Ev.procCall [1]]⟩) ∧
    (xmlSecBufferedTransformFlush
        (Option.some fun l => if l = [1] then Except.error () else Except.ok (l ++ l))
        ⟨TransformStatus.statusNone, Option.some [2]⟩ true false true =
      ⟨-1, ⟨TransformStatus.statusNone, Option.some [2, 2]⟩,
        [Ev.procCall [2], Ev.nextWrite [2, 2]]⟩) ∧
    (xmlSecBufferedTransformFlush
        (Option.some fun l => if l = [1] then Except.error () else Except.ok (l ++ l))
        ⟨TransformStatus.statusNone, Option.some [2]⟩ true true false =
      ⟨-1, ⟨TransformStatus.statusOk, Option.none⟩,
        [Ev.procCall [2], Ev.nextWrite [2, 2], Ev.nextFlush]⟩) := by
  refine ⟨?_, ?_, ?_⟩
  · exact (flush_error_cases _ [1] true true).1 rfl
  · exact (flush_error_cases _ [2] true false).2.1 [2, 2] rfl
  · exact (flush_error_cases _ [2] false true).2.2 [2, 2] rfl

/-- Writes starting from a pending node that already owns a buffer with
content `c` append the concatenation of all inputs, return 0 each time and
never call a collaborator. -/
theorem runWrites_append (inputs : List (List Nat)) (c : List Nat) :
    runWrites true true ⟨TransformStatus.statusNone, Option.some c⟩ inputs =
      ⟨List.replicate inputs.length 0,
        ⟨TransformStatus.statusNone, Option.some (c ++ inputs.flatten)⟩, []⟩ := by
  induction inputs generalizing c with
  | nil => simp [runWrites]
  | cons input rest ih =>
    cases input with
    | nil => simp [runWrites, xmlSecBufferedTransformWrite, ih, List.replicate_succ]
    | cons b bs =>
      simp [runWrites, xmlSecBufferedTransformWrite, ih, List.replicate_succ]

/-- A nonempty sequence of Writes of nonempty inputs on a fresh pending
node creates the accumulator on the first Write and leaves it holding the
concatenation of the inputs, every call returning 0 with an empty trace. -/
theorem runWrites_fresh (inputs : List (List Nat))
    (h1 : inputs ≠ []) (h2 : ∀ l ∈ inputs, l ≠ []) :
    runWrites true true ⟨TransformStatus.statusNone, Option.none⟩ inputs =
      ⟨List.replicate inputs.length 0,
        ⟨TransformStatus.statusNone, Option.some inputs.flatten⟩, []⟩ := by
  cases inputs with
  | nil => exact absurd rfl h1
  | cons input rest =>
    obtain ⟨b, bs, rfl⟩ := List.exists_cons_of_ne_nil (h2 input (by simp))
    simp [runWrites, xmlSecBufferedTransformWrite, runWrites_append,
      List.replicate_succ]

/-- C7: on a fresh pending node with a next transform, a nonempty sequence
of Writes of nonempty inputs lazily creates the accumulator on the first
Write and appends all the bytes in call order: every call returns 0, the
accumulator ends up equal to the concatenation of the inputs, and no call
to the process callback or to either neighbor is made (empty trace). -/
theorem writes_accumulate_in_order (inputs : List (List Nat))
    (h1 : inputs ≠ []) (h2 : ∀ l ∈ inputs, l ≠ []) :
    runWrites true true ⟨TransformStatus.statusNone, Option.none⟩ inputs =
      ⟨List.replicate inputs.length 0,
        ⟨TransformStatus.statusNone, Option.some inputs.flatten⟩, []⟩ :=
  runWrites_fresh inputs h1 h2

/-- Witness for C7: two writes of "AB" then "CD" accumulate "ABCD". -/
theorem writes_accumulate_in_order_witness :
    runWrites true true ⟨TransformStatus.statusNone, Option.none⟩
        [[65, 66], [67, 68]] =
      ⟨[0, 0], ⟨TransformStatus.statusNone, Option.some [65, 66, 67, 68]⟩, []⟩ :=
  writes_accumulate_in_order [[65, 66], [67, 68]] (by decide) (by decide)

/-- C4 counterexample: Write the byte 65, then Flush with a downstream
Write that fails, then Flush again with everything succeeding.  The
accumulator created by the Write is never released in between (it still
holds [65] after the failed Flush), yet the process callback is invoked
twice on it — the failed Flush ran it at line 198 before `next.Write`
failed, and the retry runs it again on the same buffer. -/
theorem process_reinvoked_after_failed_flush :
    (xmlSecBufferedTransformFlush (Option.some fun l => Except.ok l)
        (xmlSecBufferedTransformWrite true
          ⟨TransformStatus.statusNone, Option.none⟩ true [65]).trans
        true false true).trans =
      ⟨TransformStatus.statusNone, Option.some [65]⟩ ∧
    countProcCalls
        ((xmlSecBufferedTransformFlush (Option.some fun l => Except.ok l)
            (xmlSecBufferedTransformWrite true
              ⟨TransformStatus.statusNone, Option.none⟩ true [65]).trans
            true false true).evs ++
          (xmlSecBufferedTransformFlush (Option.some fun l => Except.ok l)
            (xmlSecBufferedTransformFlush (Option.some fun l => Except.ok l)
              (xmlSecBufferedTransformWrite true
                ⟨TransformStatus.statusNone, Option.none⟩ true [65]).trans
              true false true).trans
            true true true).evs) = 2 := by
  exact ⟨rfl, rfl⟩

/-- C4 amended: the Writes themselves never invoke the process callback;
for a nonempty sequence of nonempty Writes followed by one Flush whose
downstream Write succeeds, the callback is invoked exactly once, and any
later Flush on the resulting (finalized) node does not re-invoke it.  (The
at-most-once guarantee does not survive a Flush whose downstream Write
fails: such a Flush leaves the processed content buffered and a retry
re-invokes the callback on it, as the counterexample shows.) -/
theorem process_once_when_flush_succeeds (inputs : List (List Nat))
    (f : List Nat → Except Unit (List Nat)) (p : List Nat)
    (h1 : inputs ≠ []) (h2 : ∀ l ∈ inputs, l ≠ [])
    (hp : f inputs.flatten = Except.ok p) (nfo nwo2 nfo2 : Bool) :
    countProcCalls
        (runWrites true true ⟨TransformStatus.statusNone, Option.none⟩ inputs).evs
      = 0 ∧
    countProcCalls
        (xmlSecBufferedTransformFlush (Option.some f)
          (runWrites true true ⟨TransformStatus.statusNone, Option.none⟩
            inputs).trans true true nfo).evs = 1 ∧
    countProcCalls
        (xmlSecBufferedTransformFlush (Option.some f)
          (xmlSecBufferedTransformFlush (Option.some f)
            (runWrites true true ⟨TransformStatus.statusNone, Option.none⟩
              inputs).trans true true nfo).trans true nwo2 nfo2).evs = 0 := by
  rw [runWrites_fresh inputs h1 h2]
  cases nfo <;>
    simp [xmlSecBufferedTransformFlush, xmlSecBufferedProcess, hp, countProcCalls]

/-- Witness for C4 amended: one Write of the byte 65 and an identity
callback. -/
theorem process_once_when_flush_succeeds_witness :
    countProcCalls
        (runWrites true true ⟨TransformStatus.statusNone, Option.none⟩ [[65]]).evs
      = 0 ∧
    countProcCalls
        (xmlSecBufferedTransformFlush (Option.some fun l => Except.ok l)
          (runWrites true true ⟨TransformStatus.statusNone, Option.none⟩
            [[65]]).trans true true true).evs = 1 ∧
    countProcCalls
        (xmlSecBufferedTransformFlush (Option.some fun l => Except.ok l)
          (xmlSecBufferedTransformFlush (Option.some fun l => Except.ok l)
            (runWrites true true ⟨TransformStatus.statusNone, Option.none⟩
              [[65]]).trans true true true).trans true true true).evs = 0 :=
  process_once_when_flush_succeeds [[65]] (fun l => Except.ok l) [65]
    (by decide) (by decide) rfl true true true

/-- Flattening any number of empty lists gives the empty list. -/
theorem flatten_replicate_nil (n : Nat) :
    (List.replicate n ([] : List Nat)).flatten = [] := by
  induction n with
  | zero => rfl
  | succ n ih => simp [List.replicate_succ, ih]

/-- Read on a finalized node: 0, nothing delivered, nothing changed. -/
theorem read_statusOk_eq (cb : Option (List Nat → Except Unit (List Nat)))
    (allocOk : Bool) (b : Option (List Nat)) (prev : Option (List ChunkResp))
    (buf : List Nat) (size : Nat) :
    xmlSecBufferedTransformRead cb allocOk ⟨TransformStatus.statusOk, b⟩ prev buf size =
      ⟨0, [], ⟨TransformStatus.statusOk, b⟩, prev, buf, []⟩ := by
  by_cases hs : size = 0 <;> simp [xmlSecBufferedTransformRead, hs]

/-- A run of Reads on a finalized node only returns empty regions. -/
theorem runReads_statusOk (cb : Option (List Nat → Except Unit (List Nat)))
    (k n : Nat) (b : Option (List Nat)) (prev : Option (List ChunkResp)) :
    runReads cb k n ⟨TransformStatus.statusOk, b⟩ prev =
      ⟨List.replicate n [], ⟨TransformStatus.statusOk, b⟩, prev⟩ := by
  induction n with
  | zero => rfl
  | succ n ih => simp [runReads, read_statusOk_eq, ih, List.replicate_succ]

/-- Read on a pending node that already owns its buffer is exactly the
delivery step (no drain, no process). -/
theorem read_deliver_eq (cb : Option (List Nat → Except Unit (List Nat)))
    (content : List Nat) (l : List ChunkResp) (buf : List Nat) (k : Nat)
    (hk : ¬ k = 0) :
    xmlSecBufferedTransformRead cb true
        ⟨TransformStatus.statusNone, Option.some content⟩ (Option.some l) buf k =
      ⟨(bufferedDeliverStep content buf k).ret, (bufferedDeliverStep content buf k).out,
        (bufferedDeliverStep content buf k).trans, Option.some l,
        (bufferedDeliverStep content buf k).buf, []⟩ := by
  simp [xmlSecBufferedTransformRead, hk]

/-- The drain loop over a list of nonempty chunks succeeds, consumes every
response and appends their concatenation to the accumulator. -/
theorem drainPrev_map (k : Nat) (chunks : List (List Nat)) (acc buf : List Nat)
    (hc : ∀ c ∈ chunks, c ≠ []) :
    (drainPrev k (chunks.map ChunkResp.chunk) acc buf).ok = true ∧
    (drainPrev k (chunks.map ChunkResp.chunk) acc buf).acc = acc ++ chunks.flatten ∧
    (drainPrev k (chunks.map ChunkResp.chunk) acc buf).rest = [] := by
  induction chunks generalizing acc buf with
  | nil => simp [drainPrev]
  | cons c cs ih =>
    obtain ⟨b, bs, rfl⟩ := List.exists_cons_of_ne_nil (hc c (by simp))
    have ih' := ih (acc ++ (b :: bs)) (overlay (b :: bs) buf)
      (fun x hx => hc x (by simp [hx]))
    simp [drainPrev, ih'.1, ih'.2.1, ih'.2.2, List.append_assoc]

/-- The delivery step's return count, delivered bytes and resulting node
state do not depend on the caller region's prior content. -/
theorem bufferedDeliverStep_buf_indep (c b b' : List Nat) (s : Nat) :
    (bufferedDeliverStep c b s).ret = (bufferedDeliverStep c b' s).ret ∧
    (bufferedDeliverStep c b s).out = (bufferedDeliverStep c b' s).out ∧
    (bufferedDeliverStep c b s).trans = (bufferedDeliverStep c b' s).trans := by
  unfold bufferedDeliverStep
  split <;> simp

/-- Repeated Reads with capacity `k ≥ 1` from a pending node owning
`content` deliver exactly `content`, in order, finalize the node, leave the
previous transform untouched, and after some point every further Read in
the run returns an empty region. -/
theorem runReads_deliver (cb : Option (List Nat → Except Unit (List Nat)))
    (k : Nat) (hk : ¬ k = 0) :
    ∀ n content (l : List ChunkResp), content.length < n →
      (runReads cb k n ⟨TransformStatus.statusNone, Option.some content⟩
          (Option.some l)).outs.flatten = content ∧
      (runReads cb k n ⟨TransformStatus.statusNone, Option.some content⟩
          (Option.some l)).trans = ⟨TransformStatus.statusOk, Option.none⟩ ∧
      (runReads cb k n ⟨TransformStatus.statusNone, Option.some content⟩
          (Option.some l)).prev = Option.some l ∧
      (runReads cb k n ⟨TransformStatus.statusNone, Option.some content⟩
          (Option.some l)).outs.length = n ∧
      ∃ m, m < n ∧
        (∀ o ∈ (runReads cb k n ⟨TransformStatus.statusNone, Option.some content⟩
          (Option.some l)).outs.take m, o ≠ []) ∧
        (∀ o ∈ (runReads cb k n ⟨TransformStatus.statusNone, Option.some content⟩
          (Option.some l)).outs.drop m, o = []) := by
  intro n
  induction n with
  | zero => intro content l hn; omega
  | succ n ih =>
    intro content l hn
    by_cases hlen : content.length ≤ k
    · have hrun : runReads cb k (Nat.succ n)
          ⟨TransformStatus.statusNone, Option.some content⟩ (Option.some l) =
          ⟨content :: List.replicate n [],
            ⟨TransformStatus.statusOk, Option.none⟩, Option.some l⟩ := by
        simp [runReads, read_deliver_eq cb content l (List.replicate k 0) k hk,
          bufferedDeliverStep, hlen, runReads_statusOk]
      rw [hrun]
      refine ⟨by simp [flatten_replicate_nil], rfl, rfl, by simp, ?_⟩
      by_cases hc : content = []
      · exact ⟨0, by omega, by simp, by simp [hc, List.mem_replicate]⟩
      · have hpos : 0 < content.length := List.length_pos.mpr hc
        refine ⟨1, by omega, ?_, ?_⟩
        · intro o ho
          simp [List.take_succ] at ho
          simp [ho, hc]
        · intro o ho
          simp [List.mem_replicate] at ho
          exact ho.2
    · have hrun : runReads cb k (Nat.succ n)
          ⟨TransformStatus.statusNone, Option.some content⟩ (Option.some l) =
          ⟨content.take k ::
              (runReads cb k n ⟨TransformStatus.statusNone,
                Option.some (content.drop k)⟩ (Option.some l)).outs,
            (runReads cb k n ⟨TransformStatus.statusNone,
              Option.some (content.drop k)⟩ (Option.some l)).trans,
            (runReads cb k n ⟨TransformStatus.statusNone,
              Option.some (content.drop k)⟩ (Option.some l)).prev⟩ := by
        simp [runReads, read_deliver_eq cb content l (List.replicate k 0) k hk,
          bufferedDeliverStep, hlen]
      have hdrop : (content.drop k).length < n := by
        simp [List.length_drop]
        omega
      obtain ⟨ihf, iht, ihp, ihl, m, hm, hm1, hm2⟩ := ih (content.drop k) l hdrop
      rw [hrun]
      refine ⟨?_, iht, ihp, by simp [ihl], ?_⟩
      · simp [ihf, List.take_append_drop]
      · refine ⟨m + 1, by omega, ?_, ?_⟩
        · intro o ho
          simp [List.take_succ_cons] at ho
          rcases ho with ho | ho
          · rw [ho]
            have : ¬ content.take k = [] := by
              rw [List.take_eq_nil_iff]
              push_neg
              constructor
              · exact hk
              · intro hcon
                rw [hcon] at hlen
                simp at hlen
            exact this
          · exact hm1 o ho
        · intro o ho
          simp [List.drop_succ_cons] at ho
          exact hm2 o ho

/-- A run of Reads starting on a fresh pending node whose upstream holds
the nonempty chunks of `chunks` behaves exactly like a run starting on a
pending node that already owns the processed content `p` with an exhausted
upstream: the first Read drains everything, processes it and delivers from
the processed buffer. -/
theorem runReads_fresh_eq (cb : Option (List Nat → Except Unit (List Nat)))
    (chunks : List (List Nat)) (p : List Nat) (k n : Nat) (hk : ¬ k = 0)
    (hc : ∀ c ∈ chunks, c ≠ [])
    (hp : (xmlSecBufferedProcess cb chunks.flatten).1 = Except.ok p) :
    runReads cb k (Nat.succ n) ⟨TransformStatus.statusNone, Option.none⟩
        (Option.some (chunks.map ChunkResp.chunk)) =
      runReads cb k (Nat.succ n) ⟨TransformStatus.statusNone, Option.some p⟩
        (Option.some []) := by
  have hd := drainPrev_map k chunks [] (List.replicate k 0) hc
  cases hpp : xmlSecBufferedProcess cb chunks.flatten with
  | mk r pev =>
    have hr : r = Except.ok p := by rw [hpp] at hp; exact hp
    subst hr
    have hindep := bufferedDeliverStep_buf_indep p
      (drainPrev k (chunks.map ChunkResp.chunk) [] (List.replicate k 0)).buf
      (List.replicate k 0) k
    have hL : xmlSecBufferedTransformRead cb true
        ⟨TransformStatus.statusNone, Option.none⟩
        (Option.some (chunks.map ChunkResp.chunk)) (List.replicate k 0) k =
        ⟨(bufferedDeliverStep p (drainPrev k (chunks.map ChunkResp.chunk) []
            (List.replicate k 0)).buf k).ret,
          (bufferedDeliverStep p (drainPrev k (chunks.map ChunkResp.chunk) []
            (List.replicate k 0)).buf k).out,
          (bufferedDeliverStep p (drainPrev k (chunks.map ChunkResp.chunk) []
            (List.replicate k 0)).buf k).trans,
          Option.some [],
          (bufferedDeliverStep p (drainPrev k (chunks.map ChunkResp.chunk) []
            (List.replicate k 0)).buf k).buf,
          (drainPrev k (chunks.map ChunkResp.chunk) [] (List.replicate k 0)).evs
            ++ pev⟩ := by
      simp [xmlSecBufferedTransformRead, hk, hd.1, hd.2.1, hd.2.2, hpp]
    have hR := read_deliver_eq cb p ([] : List ChunkResp) (List.replicate k 0) k hk
    simp only [runReads, hL, hR]
    rw [hindep.2.2, hindep.2.1]

/-- C1: a fresh pending node over an upstream exposing content `B` (any
chunking into nonempty chunks) and a process callback turning `B` into `p`,
read repeatedly with capacity `k ≥ 1` often enough (`n > p.length` calls),
delivers exactly `p`: the concatenation of the delivered regions is `p`, in
order, nothing duplicated or dropped; the node ends finalized; and the
deliveries are some nonempty regions followed only by 0-byte returns (the
run makes `n` calls and at least the last is a 0-byte return, after which
every further Read keeps returning 0). -/
theorem read_partial_delivery_complete (chunks : List (List Nat))
    (cb : Option (List Nat → Except Unit (List Nat))) (p : List Nat) (k n : Nat)
    (hk : 1 ≤ k) (hc : ∀ c ∈ chunks, c ≠ [])
    (hp : (xmlSecBufferedProcess cb chunks.flatten).1 = Except.ok p)
    (hn : p.length < n) :
    (runReads cb k n ⟨TransformStatus.statusNone, Option.none⟩
        (Option.some (chunks.map ChunkResp.chunk))).outs.flatten = p ∧
    (runReads cb k n ⟨TransformStatus.statusNone, Option.none⟩
        (Option.some (chunks.map ChunkResp.chunk))).trans =
      ⟨TransformStatus.statusOk, Option.none⟩ ∧
    (runReads cb k n ⟨TransformStatus.statusNone, Option.none⟩
        (Option.some (chunks.map ChunkResp.chunk))).outs.length = n ∧
    ∃ m, m < n ∧
      (∀ o ∈ (runReads cb k n ⟨TransformStatus.statusNone, Option.none⟩
        (Option.some (chunks.map ChunkResp.chunk))).outs.take m, o ≠ []) ∧
      (∀ o ∈ (runReads cb k n ⟨TransformStatus.statusNone, Option.none⟩
        (Option.some (chunks.map ChunkResp.chunk))).outs.drop m, o = []) := by
  have hk0 : ¬ k = 0 := by omega
  cases n with
  | zero => omega
  | succ n =>
    rw [runReads_fresh_eq cb chunks p k n hk0 hc hp]
    obtain ⟨h1, h2, _, h4, m, hm, hm1, hm2⟩ :=
      runReads_deliver cb k hk0 (Nat.succ n) p [] hn
    exact ⟨h1, h2, h4, m, hm, hm1, hm2⟩

/-- Witness for C1: upstream "XYZ"-like bytes [1,2] then [3], identity
callback, capacity 2, four reads: deliveries are [1,2], [3], then 0-byte
returns, and the node finalizes. -/
theorem read_partial_delivery_complete_witness :
    (runReads (Option.some fun l => Except.ok l) 2 4
        ⟨TransformStatus.statusNone, Option.none⟩
        (Option.some ([[1, 2], [3]].map ChunkResp.chunk))).outs.flatten = [1, 2, 3] ∧
    (runReads (Option.some fun l => Except.ok l) 2 4
        ⟨TransformStatus.statusNone, Option.none⟩
        (Option.some ([[1, 2], [3]].map ChunkResp.chunk))).trans =
      ⟨TransformStatus.statusOk, Option.none⟩ ∧
    (runReads (Option.some fun l => Except.ok l) 2 4
        ⟨TransformStatus.statusNone, Option.none⟩
        (Option.some ([[1, 2], [3]].map ChunkResp.chunk))).outs.length = 4 ∧
    ∃ m, m < 4 ∧
      (∀ o ∈ (runReads (Option.some fun l => Except.ok l) 2 4
        ⟨TransformStatus.statusNone, Option.none⟩
        (Option.some ([[1, 2], [3]].map ChunkResp.chunk))).outs.take m, o ≠ []) ∧
      (∀ o ∈ (runReads (Option.some fun l => Except.ok l) 2 4
        ⟨TransformStatus.statusNone, Option.none⟩
        (Option.some ([[1, 2], [3]].map ChunkResp.chunk))).outs.drop m, o = []) :=
  read_partial_delivery_complete [[1, 2], [3]] (Option.some fun l => Except.ok l)
    [1, 2, 3] 2 4 (by decide) (by decide) rfl (by decide)
